import Mathlib

/-
  Verification of the hand-tracking pipeline of alxandrb/Threejs-Hand-Tracker.

  Shallow embedding of the core modules:
    - src/js/smoothing.js   (rawBuf, smoothPos, applySmoothing)
    - src/js/recording.js   (startRec, stopRec, captureFrame, the 100ms UI tick)
    - src/js/tracking.js    (the MediaPipe result callback and the
                             setTimeout-based inference scheduling loop)
    - src/js/renderer.js    (the per-frame recording/smoothing portion of loop)
    - state.js              (the shared flag record)

  Numbers are modelled as exact rationals; JS toFixed is modelled as exact
  rounding (ties away from zero).  The cooperative event loop of the browser
  is modelled as a small labelled transition system over counters of pending
  timers and in-flight inference calls.
-/

namespace HandTracker

/-- Number of hand landmarks, `NJ` in config.js. -/
def NJ : Nat := 21

/-- A plain 3D point, mirroring the `\x7bx, y, z\x7d` objects of smoothing.js. -/
structure Point3 where
  x : ℚ
  y : ℚ
  z : ℚ
deriving Repr, DecidableEq

/-- The all-zero point, the initial value of every smoothPos entry. -/
def pzero : Point3 := ⟨0, 0, 0⟩

/-- One recorded frame, as pushed by captureFrame in recording.js:
a relative timestamp `t` in seconds and a flat coordinate list `lm`. -/
structure RecFrame where
  t : ℚ
  lm : List ℚ
deriving Repr, DecidableEq

/-- The shared mutable module state relevant to the claims: the flag record
of state.js (`detected`, `firstFrame`, `isRecording`), the landmark buffers
of smoothing.js (`rawBuf`, `smoothPos`), the recorder module state of
recording.js (`recFrames`, `recStart`, `recDur`, `lastCap`), and the
presence boolean last passed to the UI collaborator setHandData. -/
structure AppState where
  rawBuf : List ℚ
  smoothPos : List Point3
  detected : Bool
  firstFrame : Bool
  isRecording : Bool
  uiPresence : Bool
  recFrames : List RecFrame
  recStart : ℚ
  recDur : ℚ
  lastCap : ℚ
deriving Repr, DecidableEq

/-- JavaScript rounding to an integer as used by toFixed: round to nearest,
ties away from zero (a negative number rounds as the negated positive). -/
def jsRound (q : ℚ) : ℤ :=
  if q.num < 0 then -((-q) + 1 / 2).floor else (q + 1 / 2).floor

/-- JavaScript Number.prototype.toFixed on exact rationals: keep n decimal
digits. -/
def toFixed (n : ℕ) (q : ℚ) : ℚ :=
  jsRound (q * 10 ^ n) / 10 ^ n

/-- smoothing.js applySmoothing: one in-place step from rawBuf toward
smoothPos.  If state.firstFrame is false every point snaps to the raw
buffer; otherwise every axis of every point is lerped by alpha.  In both
cases state.firstFrame is set to true afterwards.  The JS loop mutates
smoothPos index by index; since state.firstFrame is only written after the
loop, this equals a map over the 21 indices. -/
def applySmoothing (alpha : ℚ) (s : AppState) : AppState :=
  { s with
    smoothPos :=
      (List.range NJ).map (fun i =>
        let b := i * 3
        if !s.firstFrame then
          ⟨s.rawBuf.getD b 0, s.rawBuf.getD (b + 1) 0, s.rawBuf.getD (b + 2) 0⟩
        else
          let p := s.smoothPos.getD i pzero
          ⟨p.x + (s.rawBuf.getD b 0 - p.x) * alpha,
           p.y + (s.rawBuf.getD (b + 1) 0 - p.y) * alpha,
           p.z + (s.rawBuf.getD (b + 2) 0 - p.z) * alpha⟩),
    firstFrame := true }

/-- recording.js MAX_CAPTURE_FPS. -/
def MAX_CAPTURE_FPS : ℚ := 30

/-- recording.js CAP_INTERVAL_MS = 1000 / MAX_CAPTURE_FPS. -/
def CAP_INTERVAL_MS : ℚ := 1000 / MAX_CAPTURE_FPS

/-- recording.js startRec: unconditionally clears recFrames, stamps
_recStart with the current time, resets _lastCap and raises isRecording.
The source has no already-recording guard; DOM updates are omitted. -/
def startRec (now : ℚ) (s : AppState) : AppState :=
  { s with
    recFrames := []
    recStart := now
    lastCap := 0
    isRecording := true }

/-- recording.js stopRec: returns immediately when not recording, otherwise
clears isRecording.  recFrames is read for the summary text but never
written; DOM updates are omitted. -/
def stopRec (s : AppState) : AppState :=
  if !s.isRecording then s
  else { s with isRecording := false }

/-- The frame object pushed by captureFrame: elapsed seconds since session
start at 4 decimals, and the flattened smoothPos rounded to 5 decimals. -/
def mkFrame (now : ℚ) (s : AppState) : RecFrame :=
  { t := toFixed 4 ((now - s.recStart) / 1000)
    lm := (s.smoothPos.map (fun p =>
            [toFixed 5 p.x, toFixed 5 p.y, toFixed 5 p.z])).flatten }

/-- recording.js captureFrame: drops the call when less than CAP_INTERVAL_MS
elapsed since the last captured sample, otherwise stamps _lastCap and pushes
a frame.  It does not consult state.isRecording. -/
def captureFrame (now : ℚ) (s : AppState) : AppState :=
  if now - s.lastCap < CAP_INTERVAL_MS then s
  else
    { s with
      lastCap := now
      recFrames := s.recFrames ++ [mkFrame now s] }

/-- recording.js _tickUI (the 100ms setInterval poll): returns when not
recording; otherwise, when a positive duration limit has been reached by
the elapsed seconds, calls stopRec.  DOM updates are omitted. -/
def tickUI (now : ℚ) (s : AppState) : AppState :=
  if !s.isRecording then s
  else
    let el := (now - s.recStart) / 1000
    if s.recDur > 0 then
      if el ≥ s.recDur then stopRec s else s
    else s

/-- The record-button click handler wired by initRecording:
toggles via stopRec when recording, startRec otherwise. -/
def recbtnClick (now : ℚ) (s : AppState) : AppState :=
  if s.isRecording then stopRec s else startRec now s

/-- One MediaPipe landmark in detector-native normalized coordinates. -/
structure Landmark where
  x : ℚ
  y : ℚ
  z : ℚ
deriving Repr, DecidableEq

/-- The results object delivered to the tracking.js onResults callback,
restricted to the field the callback branches on. -/
structure MPResults where
  multiHandLandmarks : List (List Landmark)
deriving Repr, DecidableEq

/-- tracking.js onResults: when a hand is present, write the mirrored and
scaled landmarks flat into rawBuf and raise state.detected, publishing
presence to the UI; otherwise clear state.detected and state.firstFrame,
publish absence, and stop an active recording session. -/
def onResults (scale : ℚ) (res : MPResults) (s : AppState) : AppState :=
  if res.multiHandLandmarks.length > 0 then
    let lms := res.multiHandLandmarks.getD 0 []
    { s with
      rawBuf :=
        ((List.range NJ).map (fun i =>
          let l := lms.getD i ⟨0, 0, 0⟩
          [-(l.x - 1 / 2) * scale, -(l.y - 1 / 2) * scale, -l.z * (8 / 10)])).flatten
      detected := true
      uiPresence := true }
  else
    let s1 := { s with detected := false, firstFrame := false, uiPresence := false }
    if s1.isRecording then stopRec s1 else s1

/-- The tracking/recording portion of the renderer.js render loop body:
when state.detected, apply smoothing and, if recording, capture a frame;
otherwise leave the modelled state untouched (camera drift and mesh
visibility are outside the model). -/
def loopBody (alpha now : ℚ) (s : AppState) : AppState :=
  if s.detected then
    let s1 := applySmoothing alpha s
    if s1.isRecording then captureFrame now s1 else s1
  else s

/-! ### The inference scheduling loop of tracking.js

The browser event loop is modelled by counters: `timers` counts pending
setTimeout callbacks for runInference, `inflight` counts outstanding
_hands.send invocations.  `running` is _running, `ready` collapses
_hands being set and video.readyState ≥ 2. -/

/-- Scheduler-visible state of tracking.js. -/
structure Sched where
  running : Bool
  ready : Bool
  timers : Nat
  inflight : Nat
deriving Repr, DecidableEq

/-- Events of the cooperative event loop affecting the inference scheduler:
a pending timer fires (running runInference up to its suspension point), an
outstanding detector call resolves (after which runInference reschedules),
setMPRate runs (its clearTimeout cancels a pending timer only when the
stored handle has not fired yet, hence the flag), or source readiness
changes. -/
inductive SchedEv where
  | fire
  | complete
  | setRate (cancels : Bool)
  | setReady (b : Bool)
deriving Repr, DecidableEq

/-- One event step of the scheduling loop.  none means the event is not
enabled (no pending timer to fire, no call to complete, nothing to cancel).
fire: runInference either reschedules at once (guard not met: net timer
count unchanged) or starts a detector call.  complete: the await resolves
and schedule() arms one timer.  setRate: clearTimeout optionally removes a
pending timer, then schedule() arms one when _running. -/
def schedStep : SchedEv → Sched → Option Sched
  | .fire, s =>
      if s.timers = 0 then none
      else if s.running && s.ready then
        some { s with timers := s.timers - 1, inflight := s.inflight + 1 }
      else
        some s
  | .complete, s =>
      if s.inflight = 0 then none
      else some { s with inflight := s.inflight - 1, timers := s.timers + 1 }
  | .setRate c, s =>
      if c then
        if s.timers = 0 then none
        else some { s with timers := s.timers - 1 + (if s.running then 1 else 0) }
      else
        some { s with timers := s.timers + (if s.running then 1 else 0) }
  | .setReady b, s => some { s with ready := b }

/-- Run a sequence of event-loop events from a scheduler state. -/
def schedRun : List SchedEv → Sched → Option Sched
  | [], s => some s
  | e :: evs, s => (schedStep e s).bind (schedRun evs)

/-- True for the events of the self-rescheduling loop itself, i.e. all
events except a setMPRate call. -/
def noRateChange : SchedEv → Bool
  | .setRate _ => false
  | _ => true

/-- The scheduler state right after startMPLoop: running, source ready,
one armed timer, no outstanding inference. -/
def schedStart : Sched := ⟨true, true, 1, 0⟩

/-! ### Concrete states used to instantiate the theorems -/

/-- The concrete mid-session scenario of the spec: raw point 0 at (1,0,0),
all smoothed points at the origin, firstFrame already true, not recording. -/
def scenarioState : AppState :=
  { rawBuf := 1 :: List.replicate 62 0
    smoothPos := List.replicate NJ pzero
    detected := true
    firstFrame := true
    isRecording := false
    uiPresence := true
    recFrames := []
    recStart := 0
    recDur := 5
    lastCap := 0 }

/-- A state in the middle of an active recording session holding one
captured frame. -/
def recState : AppState :=
  { rawBuf := List.replicate (NJ * 3) 0
    smoothPos := List.replicate NJ pzero
    detected := true
    firstFrame := true
    isRecording := true
    uiPresence := true
    recFrames := [{ t := 0, lm := [] }]
    recStart := 0
    recDur := 5
    lastCap := 0 }

/-- An idle (not recording) state with an empty frame sequence. -/
def idleState : AppState :=
  { recState with isRecording := false, recFrames := [] }

/-- A state right after detection resumed: firstFrame still false. -/
def freshState : AppState :=
  { recState with firstFrame := false, isRecording := false }

/-- A detector result carrying no landmark set. -/
def noHandResults : MPResults := ⟨[]⟩

/-! ### Helper lemmas -/

/-- getD through a map over List.range picks out the function value. -/
lemma getD_map_range {α : Type} (f : Nat → α) (d : α) {n i : Nat} (hi : i < n) :
    ((List.range n).map f).getD i d = f i := by
  simp [List.getD, List.getElem?_map, List.getElem?_range, hi]

lemma applySmoothing_rawBuf (alpha : ℚ) (s : AppState) :
    (applySmoothing alpha s).rawBuf = s.rawBuf := rfl

lemma applySmoothing_firstFrame (alpha : ℚ) (s : AppState) :
    (applySmoothing alpha s).firstFrame = true := rfl

lemma applySmoothing_isRecording (alpha : ℚ) (s : AppState) :
    (applySmoothing alpha s).isRecording = s.isRecording := rfl

lemma applySmoothing_recFrames (alpha : ℚ) (s : AppState) :
    (applySmoothing alpha s).recFrames = s.recFrames := rfl

/-- On a snap call (firstFrame still false) every smoothed point is the
raw triple at its stride-3 slot. -/
lemma applySmoothing_getD_snap (alpha : ℚ) (s : AppState)
    (h : s.firstFrame = false) {i : Nat} (hi : i < NJ) :
    (applySmoothing alpha s).smoothPos.getD i pzero =
      ⟨s.rawBuf.getD (i * 3) 0, s.rawBuf.getD (i * 3 + 1) 0,
       s.rawBuf.getD (i * 3 + 2) 0⟩ := by
  unfold applySmoothing
  simp only []
  rw [getD_map_range _ _ hi]
  simp [h]

/-- On an interpolating call (firstFrame true) every axis of every smoothed
point moves toward the raw value by the fraction alpha. -/
lemma applySmoothing_getD_lerp (alpha : ℚ) (s : AppState)
    (h : s.firstFrame = true) {i : Nat} (hi : i < NJ) :
    (applySmoothing alpha s).smoothPos.getD i pzero =
      ⟨(s.smoothPos.getD i pzero).x
         + (s.rawBuf.getD (i * 3) 0 - (s.smoothPos.getD i pzero).x) * alpha,
       (s.smoothPos.getD i pzero).y
         + (s.rawBuf.getD (i * 3 + 1) 0 - (s.smoothPos.getD i pzero).y) * alpha,
       (s.smoothPos.getD i pzero).z
         + (s.rawBuf.getD (i * 3 + 2) 0 - (s.smoothPos.getD i pzero).z) * alpha⟩ := by
  unfold applySmoothing
  simp only []
  rw [getD_map_range _ _ hi]
  simp [h]

lemma captureFrame_isRecording (now : ℚ) (s : AppState) :
    (captureFrame now s).isRecording = s.isRecording := by
  unfold captureFrame
  split <;> rfl

lemma captureFrame_detected (now : ℚ) (s : AppState) :
    (captureFrame now s).detected = s.detected := by
  unfold captureFrame
  split <;> rfl

lemma stopRec_recFrames (s : AppState) :
    (stopRec s).recFrames = s.recFrames := by
  unfold stopRec
  split <;> rfl

lemma stopRec_detected (s : AppState) :
    (stopRec s).detected = s.detected := by
  unfold stopRec
  split <;> rfl

/-- Dropping three leading entries shifts a getD index by three. -/
lemma getD_cons_three (a b c : ℚ) (l : List ℚ) (n : Nat) :
    (a :: b :: c :: l).getD (n + 3) 0 = l.getD n 0 := rfl

/-- Flattening per-point coordinate triples: slot i*3 and its two
successors hold the three projections of point i. -/
lemma flatten_triples_getD (f₁ f₂ f₃ : Point3 → ℚ) (l : List Point3) :
    ∀ (i : Nat), i < l.length →
      ((l.map (fun p => [f₁ p, f₂ p, f₃ p])).flatten).getD (i * 3) 0
          = f₁ (l.getD i pzero) ∧
      ((l.map (fun p => [f₁ p, f₂ p, f₃ p])).flatten).getD (i * 3 + 1) 0
          = f₂ (l.getD i pzero) ∧
      ((l.map (fun p => [f₁ p, f₂ p, f₃ p])).flatten).getD (i * 3 + 2) 0
          = f₃ (l.getD i pzero) := by
  induction l with
  | nil => intro i hi; simp at hi
  | cons p l ih =>
      intro i hi
      cases i with
      | zero => exact ⟨rfl, rfl, rfl⟩
      | succ j =>
          have hj : j < l.length := by simpa using hi
          obtain ⟨h1, h2, h3⟩ := ih j hj
          have e1 : (j + 1) * 3 = j * 3 + 3 := by ring
          have e2 : (j + 1) * 3 + 1 = (j * 3 + 1) + 3 := by ring
          have e3 : (j + 1) * 3 + 2 = (j * 3 + 2) + 3 := by ring
          refine ⟨?_, ?_, ?_⟩
          · rw [e1]
            simpa [getD_cons_three] using h1
          · rw [e2]
            simpa [getD_cons_three] using h2
          · rw [e3]
            simpa [getD_cons_three] using h3

/-- Flattening per-point coordinate triples produces three entries per
point. -/
lemma flatten_triples_length (f₁ f₂ f₃ : Point3 → ℚ) (l : List Point3) :
    ((l.map (fun p => [f₁ p, f₂ p, f₃ p])).flatten).length = l.length * 3 := by
  induction l with
  | nil => rfl
  | cons p l ih => simp [ih]; ring

/-- One enabled non-setMPRate event keeps pending timers plus in-flight
inferences at most one. -/
lemma schedStep_bound {e : SchedEv} (he : noRateChange e = true) {s s1 : Sched}
    (hs : s.timers + s.inflight ≤ 1) (h : schedStep e s = some s1) :
    s1.timers + s1.inflight ≤ 1 := by
  cases e with
  | fire =>
      simp only [schedStep] at h
      split at h
      · exact absurd h (by simp)
      · split at h
        · injection h with h
          subst h
          show s.timers - 1 + (s.inflight + 1) ≤ 1
          omega
        · injection h with h
          subst h
          exact hs
  | complete =>
      simp only [schedStep] at h
      split at h
      · exact absurd h (by simp)
      · injection h with h
        subst h
        show s.timers + 1 + (s.inflight - 1) ≤ 1
        omega
  | setRate c => simp [noRateChange] at he
  | setReady b =>
      simp only [schedStep] at h
      injection h with h
      subst h
      exact hs

/-- A run of the event loop without setMPRate events keeps pending timers
plus in-flight inferences at most one. -/
lemma schedRun_bound (evs : List SchedEv) :
    (∀ e ∈ evs, noRateChange e = true) →
    ∀ s s1 : Sched, schedRun evs s = some s1 →
      s.timers + s.inflight ≤ 1 → s1.timers + s1.inflight ≤ 1 := by
  induction evs with
  | nil =>
      intro _ s s1 h hs
      simp only [schedRun] at h
      injection h with h
      subst h
      exact hs
  | cons e evs ih =>
      intro hall s s1 h hs
      simp only [schedRun] at h
      cases hstep : schedStep e s with
      | none => rw [hstep] at h; simp at h
      | some s2 =>
          rw [hstep] at h
          simp only [Option.some_bind] at h
          have h2 := schedStep_bound (hall e (by simp)) hs hstep
          exact ih (fun x hx => hall x (by simp [hx])) s2 s1 h h2

/-! ### Claim theorems -/

/-- C1 counterexample: starting from the state right after startMPLoop, the
trace [timer fires and inference starts, setMPRate runs while the stored
handle has already fired, the freshly armed timer fires] reaches a state
with two outstanding inference calls, refuting the claim that at most one
inference is outstanding for any sequence of setMPRate calls. -/
theorem setMPRate_midflight_two_inflight :
    (schedRun [SchedEv.fire, SchedEv.setRate false, SchedEv.fire] schedStart).map
        Sched.inflight = some 2 ∧ ¬(2 ≤ 1) := by decide

/-- C1 (amended): the self-rescheduling loop alone — timer firings,
inference completions and readiness changes, but no setMPRate call — keeps
at most one inference outstanding (and at most one pending timer plus
in-flight inference in total), for any detector latency. -/
theorem loop_backpressure_without_rate_change
    (evs : List SchedEv) (hevs : ∀ e ∈ evs, noRateChange e = true)
    (s s1 : Sched) (hs : s.timers + s.inflight ≤ 1)
    (hrun : schedRun evs s = some s1) :
    s1.inflight ≤ 1 ∧ s1.timers + s1.inflight ≤ 1 := by
  have hb := schedRun_bound evs hevs s s1 hrun hs
  exact ⟨by omega, hb⟩

/-- Witness for C1 (amended): a concrete fire-then-complete cycle from the
start state satisfies the hypotheses and the bound. -/
theorem loop_backpressure_without_rate_change_witness :
    (∀ e ∈ [SchedEv.fire, SchedEv.complete], noRateChange e = true) ∧
    schedStart.timers + schedStart.inflight ≤ 1 ∧
    schedRun [SchedEv.fire, SchedEv.complete] schedStart = some schedStart ∧
    (schedStart.inflight ≤ 1 ∧ schedStart.timers + schedStart.inflight ≤ 1) :=
  ⟨by decide, by decide, by decide,
   loop_backpressure_without_rate_change [SchedEv.fire, SchedEv.complete]
     (by decide) schedStart schedStart (by decide) (by decide)⟩

/-- C2: when state.firstFrame is false, applySmoothing copies the raw
buffer into every one of the 21 smoothed points unchanged, for any alpha,
and sets state.firstFrame to true. -/
theorem applySmoothing_first_frame_snap (alpha : ℚ) (s : AppState)
    (h : s.firstFrame = false) :
    (applySmoothing alpha s).firstFrame = true ∧
    ∀ i : Nat, i < NJ →
      (applySmoothing alpha s).smoothPos.getD i pzero =
        ⟨s.rawBuf.getD (i * 3) 0, s.rawBuf.getD (i * 3 + 1) 0,
         s.rawBuf.getD (i * 3 + 2) 0⟩ :=
  ⟨rfl, fun _ hi => applySmoothing_getD_snap alpha s h hi⟩

/-- Witness for C2 at a concrete post-loss state and alpha 0.18. -/
theorem applySmoothing_first_frame_snap_witness :
    freshState.firstFrame = false ∧
    ((applySmoothing (18 / 100) freshState).firstFrame = true ∧
     ∀ i : Nat, i < NJ →
       (applySmoothing (18 / 100) freshState).smoothPos.getD i pzero =
         ⟨freshState.rawBuf.getD (i * 3) 0, freshState.rawBuf.getD (i * 3 + 1) 0,
          freshState.rawBuf.getD (i * 3 + 2) 0⟩) :=
  ⟨rfl, applySmoothing_first_frame_snap (18 / 100) freshState rfl⟩

/-- C4 counterexample: in a concrete recording state holding one frame,
calling startRec is not a no-op — it clears the frame sequence and moves
the start timestamp. -/
theorem startRec_while_recording_clears_frames :
    recState.isRecording = true ∧
    (startRec 100 recState).recFrames ≠ recState.recFrames ∧
    (startRec 100 recState).recStart ≠ recState.recStart := by
  refine ⟨rfl, ?_, ?_⟩
  · simp [startRec, recState]
  · simp only [startRec, recState]
    norm_num

/-- C4 (amended): startRec has no already-recording guard — called while a
session is active it restarts the session (clears the frame sequence,
restamps the start time, resets the capture throttle, stays recording);
the no-op protection lives in the UI button handler, which invokes stopRec
instead of startRec while recording. -/
theorem startRec_restart_and_ui_guard (now : ℚ) (s : AppState)
    (h : s.isRecording = true) :
    (startRec now s).recFrames = [] ∧
    (startRec now s).recStart = now ∧
    (startRec now s).lastCap = 0 ∧
    (startRec now s).isRecording = true ∧
    recbtnClick now s = stopRec s :=
  ⟨rfl, rfl, rfl, rfl, by simp [recbtnClick, h]⟩

/-- Witness for C4 (amended) at the concrete recording state. -/
theorem startRec_restart_and_ui_guard_witness :
    recState.isRecording = true ∧
    ((startRec 100 recState).recFrames = [] ∧
     (startRec 100 recState).recStart = 100 ∧
     (startRec 100 recState).lastCap = 0 ∧
     (startRec 100 recState).isRecording = true ∧
     recbtnClick 100 recState = stopRec recState) :=
  ⟨rfl, startRec_restart_and_ui_guard 100 recState rfl⟩

/-- C5 counterexample: captureFrame called directly while not recording is
not a no-op — in a concrete idle state with the rate cap satisfied it
appends a frame. -/
theorem captureFrame_while_idle_appends :
    idleState.isRecording = false ∧
    (captureFrame 1000 idleState).recFrames ≠ idleState.recFrames := by
  constructor
  · rfl
  · have hc : ¬((1000 : ℚ) < CAP_INTERVAL_MS) := by
      norm_num [CAP_INTERVAL_MS, MAX_CAPTURE_FPS]
    simp [captureFrame, hc, idleState, recState]

/-- C5 (amended): captureFrame itself does not consult state.isRecording;
the guard sits at the render-loop call site, so a render tick in a
non-recording state leaves the frame sequence unchanged, and stopRec never
touches the finalized sequence. -/
theorem render_tick_capture_guard (alpha now : ℚ) (s : AppState)
    (h : s.isRecording = false) :
    (loopBody alpha now s).recFrames = s.recFrames ∧
    (stopRec s).recFrames = s.recFrames := by
  constructor
  · unfold loopBody
    split
    · simp [applySmoothing_isRecording, h, applySmoothing_recFrames]
    · rfl
  · exact stopRec_recFrames s

/-- Witness for C5 (amended) at the concrete idle mid-detection state. -/
theorem render_tick_capture_guard_witness :
    scenarioState.isRecording = false ∧
    ((loopBody (18 / 100) 1000 scenarioState).recFrames = scenarioState.recFrames ∧
     (stopRec scenarioState).recFrames = scenarioState.recFrames) :=
  ⟨rfl, render_tick_capture_guard (18 / 100) 1000 scenarioState rfl⟩

/-- C6: captureFrame appends a frame exactly when at least 1000/30 ms have
elapsed since the last captured sample (earlier calls are dropped without
queueing), and every appended frame carries the elapsed seconds rounded to
4 decimals together with the 21 smoothed points as a flat list of 63
coordinates, each rounded to 5 decimals. -/
theorem captureFrame_rate_cap_and_frame_shape (now : ℚ) (s : AppState)
    (hlen : s.smoothPos.length = NJ) :
    CAP_INTERVAL_MS = 1000 / 30 ∧
    (now - s.lastCap < CAP_INTERVAL_MS → captureFrame now s = s) ∧
    (¬ now - s.lastCap < CAP_INTERVAL_MS →
      (captureFrame now s).lastCap = now ∧
      (captureFrame now s).recFrames = s.recFrames ++ [mkFrame now s]) ∧
    (mkFrame now s).t = toFixed 4 ((now - s.recStart) / 1000) ∧
    (mkFrame now s).lm.length = NJ * 3 ∧
    (∀ i : Nat, i < NJ →
      (mkFrame now s).lm.getD (i * 3) 0 = toFixed 5 ((s.smoothPos.getD i pzero).x) ∧
      (mkFrame now s).lm.getD (i * 3 + 1) 0 = toFixed 5 ((s.smoothPos.getD i pzero).y) ∧
      (mkFrame now s).lm.getD (i * 3 + 2) 0 = toFixed 5 ((s.smoothPos.getD i pzero).z)) := by
  refine ⟨rfl, ?_, ?_, rfl, ?_, ?_⟩
  · intro hc
    simp [captureFrame, hc]
  · intro hc
    simp [captureFrame, hc]
  · simp only [mkFrame]
    rw [flatten_triples_length, hlen]
  · intro i hi
    have hi2 : i < s.smoothPos.length := by rw [hlen]; exact hi
    exact flatten_triples_getD _ _ _ s.smoothPos i hi2

/-- Witness for C6 at the concrete mid-detection state. -/
theorem captureFrame_rate_cap_and_frame_shape_witness :
    scenarioState.smoothPos.length = NJ ∧
    (CAP_INTERVAL_MS = 1000 / 30 ∧
     (1000 - scenarioState.lastCap < CAP_INTERVAL_MS →
       captureFrame 1000 scenarioState = scenarioState) ∧
     (¬ 1000 - scenarioState.lastCap < CAP_INTERVAL_MS →
       (captureFrame 1000 scenarioState).lastCap = 1000 ∧
       (captureFrame 1000 scenarioState).recFrames =
         scenarioState.recFrames ++ [mkFrame 1000 scenarioState]) ∧
     (mkFrame 1000 scenarioState).t =
       toFixed 4 ((1000 - scenarioState.recStart) / 1000) ∧
     (mkFrame 1000 scenarioState).lm.length = NJ * 3 ∧
     (∀ i : Nat, i < NJ →
       (mkFrame 1000 scenarioState).lm.getD (i * 3) 0 =
         toFixed 5 ((scenarioState.smoothPos.getD i pzero).x) ∧
       (mkFrame 1000 scenarioState).lm.getD (i * 3 + 1) 0 =
         toFixed 5 ((scenarioState.smoothPos.getD i pzero).y) ∧
       (mkFrame 1000 scenarioState).lm.getD (i * 3 + 2) 0 =
         toFixed 5 ((scenarioState.smoothPos.getD i pzero).z))) :=
  ⟨by decide, captureFrame_rate_cap_and_frame_shape 1000 scenarioState (by decide)⟩

/-- C7: a detector result with no landmark set clears DetectionFlag and
FirstFrameFlag, publishes absence to the UI collaborator, and stops any
active recording session, leaving the captured frame sequence intact. -/
theorem onResults_signal_loss_auto_stop (scale : ℚ) (res : MPResults)
    (s : AppState) (h : res.multiHandLandmarks.length = 0) :
    (onResults scale res s).detected = false ∧
    (onResults scale res s).firstFrame = false ∧
    (onResults scale res s).uiPresence = false ∧
    (onResults scale res s).isRecording = false ∧
    (onResults scale res s).recFrames = s.recFrames := by
  have hng : ¬ res.multiHandLandmarks.length > 0 := by omega
  unfold onResults
  rw [if_neg hng]
  by_cases hrec : s.isRecording <;> simp [hrec, stopRec]

/-- Witness for C7: losing the hand during the concrete recording session
stops it and keeps its one captured frame. -/
theorem onResults_signal_loss_auto_stop_witness :
    noHandResults.multiHandLandmarks.length = 0 ∧
    ((onResults (12 / 10) noHandResults recState).detected = false ∧
     (onResults (12 / 10) noHandResults recState).firstFrame = false ∧
     (onResults (12 / 10) noHandResults recState).uiPresence = false ∧
     (onResults (12 / 10) noHandResults recState).isRecording = false ∧
     (onResults (12 / 10) noHandResults recState).recFrames = recState.recFrames) :=
  ⟨rfl, onResults_signal_loss_auto_stop (12 / 10) noHandResults recState rfl⟩

/-- C8: while recording, the 100ms UI poll stops the session exactly when
the duration limit is positive and the elapsed seconds have reached it; a
limit of 0 makes the poll a no-op; the render tick never changes
isRecording; and the poll leaves DetectionFlag and the frame sequence
alone. -/
theorem tickUI_duration_auto_stop (alpha now : ℚ) (s : AppState)
    (h : s.isRecording = true) :
    ((tickUI now s).isRecording = false ↔
      (0 < s.recDur ∧ s.recDur ≤ (now - s.recStart) / 1000)) ∧
    (s.recDur = 0 → tickUI now s = s) ∧
    (loopBody alpha now s).isRecording = s.isRecording ∧
    (tickUI now s).detected = s.detected ∧
    (tickUI now s).recFrames = s.recFrames := by
  have hui : tickUI now s =
      if s.recDur > 0 then
        if (now - s.recStart) / 1000 ≥ s.recDur then stopRec s else s
      else s := by
    unfold tickUI
    simp [h]
  have hloop : (loopBody alpha now s).isRecording = s.isRecording := by
    unfold loopBody
    split
    · simp [applySmoothing_isRecording, captureFrame_isRecording, h]
    · rfl
  refine ⟨?_, ?_, hloop, ?_, ?_⟩
  · rw [hui]
    by_cases hd : s.recDur > 0
    · by_cases he : (now - s.recStart) / 1000 ≥ s.recDur
      · simp [hd, he, stopRec, h]
      · simp [hd, he, h]
    · simp [hd, h]
  · intro h0
    rw [hui]
    simp [h0]
  · rw [hui]
    split
    · split
      · exact stopRec_detected s
      · rfl
    · rfl
  · rw [hui]
    split
    · split
      · exact stopRec_recFrames s
      · rfl
    · rfl

/-- Witness for C8 at the concrete recording state. -/
theorem tickUI_duration_auto_stop_witness :
    recState.isRecording = true ∧
    (((tickUI 1000 recState).isRecording = false ↔
       (0 < recState.recDur ∧ recState.recDur ≤ (1000 - recState.recStart) / 1000)) ∧
     (recState.recDur = 0 → tickUI 1000 recState = recState) ∧
     (loopBody (18 / 100) 1000 recState).isRecording = recState.isRecording ∧
     (tickUI 1000 recState).detected = recState.detected ∧
     (tickUI 1000 recState).recFrames = recState.recFrames) :=
  ⟨rfl, tickUI_duration_auto_stop (18 / 100) 1000 recState rfl⟩

/-- C10: a detector result with no landmark set leaves both landmark
buffers untouched — the last detected pose persists in rawBuf and
smoothPos through a loss of signal. -/
theorem onResults_signal_loss_preserves_buffers (scale : ℚ) (res : MPResults)
    (s : AppState) (h : res.multiHandLandmarks.length = 0) :
    (onResults scale res s).rawBuf = s.rawBuf ∧
    (onResults scale res s).smoothPos = s.smoothPos := by
  have hng : ¬ res.multiHandLandmarks.length > 0 := by omega
  unfold onResults
  rw [if_neg hng]
  by_cases hrec : s.isRecording <;> simp [hrec, stopRec]

/-- Witness for C10 at the concrete recording state. -/
theorem onResults_signal_loss_preserves_buffers_witness :
    noHandResults.multiHandLandmarks.length = 0 ∧
    ((onResults (12 / 10) noHandResults recState).rawBuf = recState.rawBuf ∧
     (onResults (12 / 10) noHandResults recState).smoothPos = recState.smoothPos) :=
  ⟨rfl, onResults_signal_loss_preserves_buffers (12 / 10) noHandResults recState rfl⟩

/-- C3: when state.firstFrame is true, every axis of every point follows
smooth := smooth + (raw - smooth) * alpha; in the spec scenario (alpha
0.18, raw x 1 held, smooth x from 0) the smoothed x is 0.18 after one call
and exactly 0.3276 after two. -/
theorem applySmoothing_lerp_step (alpha : ℚ) (s : AppState)
    (h : s.firstFrame = true) :
    (∀ i : Nat, i < NJ →
       (applySmoothing alpha s).smoothPos.getD i pzero =
         ⟨(s.smoothPos.getD i pzero).x
            + (s.rawBuf.getD (i * 3) 0 - (s.smoothPos.getD i pzero).x) * alpha,
          (s.smoothPos.getD i pzero).y
            + (s.rawBuf.getD (i * 3 + 1) 0 - (s.smoothPos.getD i pzero).y) * alpha,
          (s.smoothPos.getD i pzero).z
            + (s.rawBuf.getD (i * 3 + 2) 0 - (s.smoothPos.getD i pzero).z) * alpha⟩) ∧
    ((applySmoothing (18 / 100) scenarioState).smoothPos.getD 0 pzero).x = 18 / 100 ∧
    ((applySmoothing (18 / 100) (applySmoothing (18 / 100) scenarioState)).smoothPos.getD 0
        pzero).x = 3276 / 10000 := by
  have hi0 : (0 : Nat) < NJ := by decide
  have hp : (applySmoothing (18 / 100) scenarioState).smoothPos.getD 0 pzero =
      Point3.mk (18 / 100) 0 0 := by
    rw [applySmoothing_getD_lerp (18 / 100) scenarioState rfl hi0]
    have e₀ : scenarioState.smoothPos.getD 0 pzero = pzero := rfl
    have r₀ : scenarioState.rawBuf.getD (0 * 3) 0 = 1 := rfl
    have r₁ : scenarioState.rawBuf.getD (0 * 3 + 1) 0 = 0 := rfl
    have r₂ : scenarioState.rawBuf.getD (0 * 3 + 2) 0 = 0 := rfl
    rw [e₀, r₀, r₁, r₂]
    simp only [pzero, Point3.mk.injEq]
    norm_num
  refine ⟨fun i hi => applySmoothing_getD_lerp alpha s h hi, ?_, ?_⟩
  · rw [hp]
  · rw [applySmoothing_getD_lerp (18 / 100) (applySmoothing (18 / 100) scenarioState)
      (applySmoothing_firstFrame (18 / 100) scenarioState) hi0]
    rw [hp, applySmoothing_rawBuf]
    have r₀ : scenarioState.rawBuf.getD (0 * 3) 0 = 1 := rfl
    rw [r₀]
    norm_num

/-- Witness for C3 at the concrete spec scenario state. -/
theorem applySmoothing_lerp_step_witness :
    scenarioState.firstFrame = true ∧
    ((∀ i : Nat, i < NJ →
       (applySmoothing (18 / 100) scenarioState).smoothPos.getD i pzero =
         ⟨(scenarioState.smoothPos.getD i pzero).x
            + (scenarioState.rawBuf.getD (i * 3) 0
                - (scenarioState.smoothPos.getD i pzero).x) * (18 / 100),
          (scenarioState.smoothPos.getD i pzero).y
            + (scenarioState.rawBuf.getD (i * 3 + 1) 0
                - (scenarioState.smoothPos.getD i pzero).y) * (18 / 100),
          (scenarioState.smoothPos.getD i pzero).z
            + (scenarioState.rawBuf.getD (i * 3 + 2) 0
                - (scenarioState.smoothPos.getD i pzero).z) * (18 / 100)⟩) ∧
     ((applySmoothing (18 / 100) scenarioState).smoothPos.getD 0 pzero).x = 18 / 100 ∧
     ((applySmoothing (18 / 100) (applySmoothing (18 / 100) scenarioState)).smoothPos.getD 0
         pzero).x = 3276 / 10000) :=
  ⟨rfl, applySmoothing_lerp_step (18 / 100) scenarioState rfl⟩

/-- C9: at alpha = 1 the interpolating call degenerates to a direct copy of
the raw buffer, and a second call with the same raw buffer leaves the
smoothed state unchanged. -/
theorem applySmoothing_alpha_one_copy (s : AppState) (h : s.firstFrame = true) :
    (∀ i : Nat, i < NJ →
       (applySmoothing 1 s).smoothPos.getD i pzero =
         ⟨s.rawBuf.getD (i * 3) 0, s.rawBuf.getD (i * 3 + 1) 0,
          s.rawBuf.getD (i * 3 + 2) 0⟩) ∧
    (applySmoothing 1 (applySmoothing 1 s)).smoothPos =
      (applySmoothing 1 s).smoothPos := by
  have hcopy : ∀ i : Nat, i < NJ →
      (applySmoothing 1 s).smoothPos.getD i pzero =
        Point3.mk (s.rawBuf.getD (i * 3) 0) (s.rawBuf.getD (i * 3 + 1) 0)
          (s.rawBuf.getD (i * 3 + 2) 0) := by
    intro i hi
    rw [applySmoothing_getD_lerp 1 s h hi]
    simp only [Point3.mk.injEq]
    refine ⟨by ring, by ring, by ring⟩
  refine ⟨hcopy, ?_⟩
  apply List.ext_getElem
  · simp [applySmoothing]
  · intro i h1 h2
    have hi : i < NJ := by simpa [applySmoothing] using h2
    rw [← List.getD_eq_getElem _ pzero h1, ← List.getD_eq_getElem _ pzero h2]
    rw [applySmoothing_getD_lerp 1 (applySmoothing 1 s)
      (applySmoothing_firstFrame 1 s) hi]
    rw [hcopy i hi, applySmoothing_rawBuf]
    simp only [Point3.mk.injEq]
    refine ⟨by ring, by ring, by ring⟩

/-- Witness for C9 at the concrete mid-session state. -/
theorem applySmoothing_alpha_one_copy_witness :
    scenarioState.firstFrame = true ∧
    ((∀ i : Nat, i < NJ →
       (applySmoothing 1 scenarioState).smoothPos.getD i pzero =
         ⟨scenarioState.rawBuf.getD (i * 3) 0, scenarioState.rawBuf.getD (i * 3 + 1) 0,
          scenarioState.rawBuf.getD (i * 3 + 2) 0⟩) ∧
     (applySmoothing 1 (applySmoothing 1 scenarioState)).smoothPos =
       (applySmoothing 1 scenarioState).smoothPos) :=
  ⟨rfl, applySmoothing_alpha_one_copy scenarioState rfl⟩

end HandTracker
